import Mathlib

/-!
Shallow embedding of the gesture recognition and stabilization pipeline of
`src/gesture_controller.py` and its configuration in `src/config.py`.

Coordinates are modelled as exact rationals (ℚ).  The only floating-point
computation whose rounding could matter is the stabilizer threshold
`count >= len(history) * 0.6`: for every buffer length `len ≤ 10` (the deque
capacity) the IEEE-double product `len * 0.6` rounds to a value whose
comparison against every integer agrees with the exact rational product
`len * (6/10)` (for `len = 5` and `len = 10` the product rounds to exactly
`3.0` and `6.0`), so the exact rational comparison used here reproduces the
Python behaviour on every reachable buffer.
-/

namespace GestureCtl

/-- One hand landmark: normalized x, y (image space, y grows downward) and
relative depth z, as produced by the external hand tracker. -/
structure Landmark where
  x : ℚ
  y : ℚ
  z : ℚ
deriving DecidableEq

/-- A landmark set: the 21 named points of one detected hand. -/
def Landmarks : Type := Fin 21 → Landmark

/- Landmark indices, from `GestureController.__init__`. -/

def WRIST : Fin 21 := 0
def THUMB_CMC : Fin 21 := 1
def THUMB_MCP : Fin 21 := 2
def THUMB_IP : Fin 21 := 3
def THUMB_TIP : Fin 21 := 4
def INDEX_MCP : Fin 21 := 5
def INDEX_PIP : Fin 21 := 6
def INDEX_DIP : Fin 21 := 7
def INDEX_TIP : Fin 21 := 8
def MIDDLE_MCP : Fin 21 := 9
def MIDDLE_PIP : Fin 21 := 10
def MIDDLE_DIP : Fin 21 := 11
def MIDDLE_TIP : Fin 21 := 12
def RING_MCP : Fin 21 := 13
def RING_PIP : Fin 21 := 14
def RING_DIP : Fin 21 := 15
def RING_TIP : Fin 21 := 16
def PINKY_MCP : Fin 21 := 17
def PINKY_PIP : Fin 21 := 18
def PINKY_DIP : Fin 21 := 19
def PINKY_TIP : Fin 21 := 20

/-- State of the four non-thumb fingers; `true` = extended, `false` = curled.
Mirrors the dict returned by `_get_finger_state`. -/
structure FingerState where
  index : Bool
  middle : Bool
  ring : Bool
  pinky : Bool
deriving DecidableEq

/-- Embedding of `GestureController._get_finger_state`: a finger is extended
iff its tip's y coordinate is strictly less than its pip's y coordinate. -/
def getFingerState (landmarks : Landmarks) : FingerState :=
  { index := decide ((landmarks INDEX_TIP).y < (landmarks INDEX_PIP).y)
    middle := decide ((landmarks MIDDLE_TIP).y < (landmarks MIDDLE_PIP).y)
    ring := decide ((landmarks RING_TIP).y < (landmarks RING_PIP).y)
    pinky := decide ((landmarks PINKY_TIP).y < (landmarks PINKY_PIP).y) }

/-- Thumb orientation classes returned by `_get_thumb_direction`. -/
inductive ThumbDirection where
  | up
  | down
  | side
  | curled
deriving DecidableEq

/-- Embedding of `GestureController._get_thumb_direction`. -/
def getThumbDirection (landmarks : Landmarks) : ThumbDirection :=
  let thumb_tip := landmarks THUMB_TIP
  let wrist := landmarks WRIST
  let vertical_diff : ℚ := wrist.y - thumb_tip.y
  let horizontal_diff : ℚ := |thumb_tip.x - wrist.x|
  if vertical_diff > 0.15 then ThumbDirection.up
  else if vertical_diff < -0.10 then ThumbDirection.down
  else if horizontal_diff > 0.12 then ThumbDirection.side
  else ThumbDirection.curled

/-- Embedding of `GestureController._is_thumb_up`. -/
def isThumbUp (landmarks : Landmarks) (fingers : FingerState) : Bool :=
  if getThumbDirection landmarks ≠ ThumbDirection.up then false
  else !fingers.index && !fingers.middle && !fingers.ring && !fingers.pinky

/-- Embedding of `GestureController._is_thumb_down`. -/
def isThumbDown (landmarks : Landmarks) (fingers : FingerState) : Bool :=
  if getThumbDirection landmarks ≠ ThumbDirection.down then false
  else !fingers.index && !fingers.middle && !fingers.ring && !fingers.pinky

/-- Embedding of `GestureController._is_open_palm`. -/
def isOpenPalm (landmarks : Landmarks) (fingers : FingerState) : Bool :=
  let thumb_dir := getThumbDirection landmarks
  let thumb_out := thumb_dir = ThumbDirection.up ∨ thumb_dir = ThumbDirection.side
  let all_extended := fingers.index && fingers.middle && fingers.ring && fingers.pinky
  all_extended && decide thumb_out

/-- Embedding of `GestureController._is_fist`. -/
def isFist (landmarks : Landmarks) (fingers : FingerState) : Bool :=
  let all_curled := !fingers.index && !fingers.middle && !fingers.ring && !fingers.pinky
  if !all_curled then false
  else
    let thumb_tip := landmarks THUMB_TIP
    let index_mcp := landmarks INDEX_MCP
    let wrist := landmarks WRIST
    let palm_center_x : ℚ := (index_mcp.x + wrist.x) / 2
    let palm_center_y : ℚ := (index_mcp.y + wrist.y) / 2
    let thumb_to_palm_x : ℚ := |thumb_tip.x - palm_center_x|
    let thumb_to_palm_y : ℚ := |thumb_tip.y - palm_center_y|
    let thumb_tucked := decide (thumb_to_palm_x < 0.15) && decide (thumb_to_palm_y < 0.15)
    let vertical_diff : ℚ := |wrist.y - thumb_tip.y|
    let thumb_not_pointing := decide (vertical_diff < 0.12)
    all_curled && (thumb_tucked || thumb_not_pointing)

/-- Embedding of `GestureController._is_peace_sign`. -/
def isPeaceSign (fingers : FingerState) : Bool :=
  fingers.index && fingers.middle && !fingers.ring && !fingers.pinky

/-- Embedding of `GestureController._is_pointing_up`. -/
def isPointingUp (fingers : FingerState) : Bool :=
  fingers.index && !fingers.middle && !fingers.ring && !fingers.pinky

/-- Embedding of `GestureController.detect_gesture`: the if/elif priority chain.
The Python `None` result is `Option.none`. -/
def detectGesture (landmarks : Landmarks) : Option String :=
  let fingers := getFingerState landmarks
  if isThumbUp landmarks fingers then some "thumbs_up"
  else if isThumbDown landmarks fingers then some "thumbs_down"
  else if isPointingUp fingers then some "point_up"
  else if isPeaceSign fingers then some "peace"
  else if isOpenPalm landmarks fingers then some "open_palm"
  else if isFist landmarks fingers then some "fist"
  else none

/-- Append to a `collections.deque` with the given `maxlen`: the new element
goes to the right and elements past capacity fall off the left. -/
def dequeAppend (cap : Nat) (h : List (Option String)) (g : Option String) :
    List (Option String) :=
  let h' := h ++ [g]
  h'.drop (h'.length - cap)

/-- One step of building `gesture_counts`: `gesture_counts[g] =
gesture_counts.get(g, 0) + 1` on an insertion-ordered association list,
exactly as a CPython dict behaves. -/
def gestureCountsStep (counts : List (String × Nat)) (g : String) :
    List (String × Nat) :=
  if counts.any (fun p => p.1 == g) then
    counts.map (fun p => if p.1 == g then (p.1, p.2 + 1) else p)
  else counts ++ [(g, 1)]

/-- The `gesture_counts` dict of `_get_stable_gesture`: occurrences of each
non-`None` label, keys in order of first occurrence in the buffer. -/
def gestureCounts (h : List (Option String)) : List (String × Nat) :=
  h.foldl
    (fun counts og =>
      match og with
      | some g => gestureCountsStep counts g
      | none => counts)
    []

/-- One comparison step of Python's `max(gesture_counts,
key=gesture_counts.get)`: a later key replaces the current best only when
its count is strictly greater, so ties go to the earlier key. -/
def pickMax (best q : String × Nat) : String × Nat :=
  if q.2 > best.2 then q else best

/-- Python's `max(gesture_counts, key=gesture_counts.get)` paired with the
count of the winner: keys are scanned in insertion order, ties going to the
earliest-inserted key. -/
def maxByCount (counts : List (String × Nat)) : Option (String × Nat) :=
  match counts with
  | [] => none
  | p :: ps => some (ps.foldl pickMax p)

/-- The decision part of `_get_stable_gesture`, applied to the buffer after the
current raw label has been appended. -/
def stableOfBuffer (h : List (Option String)) : Option String :=
  if h.length < 5 then none
  else
    match maxByCount (gestureCounts h) with
    | none => none
    | some (most_common, count) =>
      if (count : ℚ) ≥ (h.length : ℚ) * 0.6 then some most_common else none

/-- Embedding of `GestureController._get_stable_gesture`: appends the current
raw label to the history deque (capacity 10) and returns the new buffer
together with the stabilized label. -/
def getStableGesture (history : List (Option String)) (current : Option String) :
    List (Option String) × Option String :=
  let h := dequeAppend 10 history current
  (h, stableOfBuffer h)

/-- Embedding of `config.GESTURE_COOLDOWN`. -/
def GESTURE_COOLDOWN : ℚ := 1.0

/-- Embedding of `config.GESTURE_ACTIONS` (insertion-ordered dict). -/
def GESTURE_ACTIONS : List (String × String) :=
  [("thumbs_up", "increase_font"),
   ("thumbs_down", "decrease_font"),
   ("open_palm", "toggle_tts"),
   ("fist", "stop_tts"),
   ("point_up", "next_page"),
   ("peace", "previous_page"),
   ("swipe_left", "next_page"),
   ("swipe_right", "previous_page")]

/-- Python's `config.GESTURE_ACTIONS.get(gesture)`. -/
def lookupAction (gesture : String) : Option String :=
  (GESTURE_ACTIONS.find? (fun p => p.1 == gesture)).map (fun p => p.2)

/-- The mutable state of the pipeline relevant to the claims:
`gesture_history`, `last_triggered_gesture` and `last_gesture_time` of
`GestureController` (with a callback attached, as in the application). -/
structure ControllerState where
  gesture_history : List (Option String)
  last_triggered_gesture : Option String
  last_gesture_time : ℚ
deriving DecidableEq

/-- The fields set in `GestureController.__init__`. -/
def initialState : ControllerState :=
  { gesture_history := []
    last_triggered_gesture := none
    last_gesture_time := 0 }

/-- Embedding of `GestureController._trigger_gesture`. The `gesture` argument
is the (truthy, hence non-`None`) stabilized label; `current_time` models
`time.time()`.  The second component is the callback invocation this call
performs: `some (gesture, action)` when `self.on_gesture_callback(gesture,
action)` runs, `none` when no callback occurs. -/
def triggerGesture (s : ControllerState) (gesture : String) (current_time : ℚ) :
    ControllerState × Option (String × String) :=
  if current_time - s.last_gesture_time < GESTURE_COOLDOWN then (s, none)
  else if some gesture = s.last_triggered_gesture then (s, none)
  else
    let s' : ControllerState :=
      { s with
        last_triggered_gesture := some gesture
        last_gesture_time := current_time }
    match lookupAction gesture with
    | some action => (s', some (gesture, action))
    | none => (s', none)

/-- Embedding of the state-relevant part of `GestureController.process_frame`
for one frame: `frame = some landmarks` when MediaPipe reports a hand,
`frame = none` when no hand is detected.  Returns the new state, the
`stable_gesture` value the method returns, and the callback invocation (if
any).  With a hand present the method classifies, stabilizes, and triggers
only when the stabilized label is truthy; with no hand it clears the history
and resets `last_triggered_gesture`. -/
def processFrame (s : ControllerState) (frame : Option Landmarks)
    (current_time : ℚ) :
    ControllerState × Option String × Option (String × String) :=
  match frame with
  | some landmarks =>
    let detected := detectGesture landmarks
    let hp := getStableGesture s.gesture_history detected
    match hp.2 with
    | some g =>
      let r := triggerGesture { s with gesture_history := hp.1 } g current_time
      (r.1, some g, r.2)
    | none => ({ s with gesture_history := hp.1 }, none, none)
  | none =>
    ({ s with gesture_history := [], last_triggered_gesture := none }, none, none)

/-- Run `processFrame` over a list of (frame, timestamp) observations,
collecting each frame's stabilized output and callback invocation. -/
def processFrames (s : ControllerState) :
    List (Option Landmarks × ℚ) →
      ControllerState × List (Option String × Option (String × String))
  | [] => (s, [])
  | (f, t) :: rest =>
    let r := processFrame s f t
    let r' := processFrames r.1 rest
    (r'.1, (r.2.1, r.2.2) :: r'.2)

/-- Number of frames in a buffer carrying the raw label `g` (the count the
`gesture_counts` dict stores for key `g`). -/
def countIn (h : List (Option String)) (g : String) : Nat :=
  h.count (some g)

/-- Index of the first frame in the buffer whose raw label is `g` (the
position that fixes `g`'s insertion order in the `gesture_counts` dict). -/
def firstIdx (h : List (Option String)) (g : String) : Nat :=
  h.findIdx (fun o => o == some g)

/-- A concrete landmark set classified as "peace": index and middle extended,
ring and pinky curled, thumb neither directional nor out to the side. -/
def lmPeace : Landmarks := fun i =>
  if i = INDEX_TIP then ⟨0, 0.3, 0⟩
  else if i = MIDDLE_TIP then ⟨0, 0.3, 0⟩
  else if i = RING_TIP then ⟨0, 0.7, 0⟩
  else if i = PINKY_TIP then ⟨0, 0.7, 0⟩
  else if i = WRIST then ⟨0, 0.9, 0⟩
  else if i = THUMB_TIP then ⟨0, 0.9, 0⟩
  else ⟨0, 0.5, 0⟩

/-- A concrete landmark set classified as no gesture at all (raw label
`None`): only the ring finger is extended, which matches no rule. -/
def lmNoGesture : Landmarks := fun i =>
  if i = RING_TIP then ⟨0, 0.3, 0⟩
  else if i = WRIST then ⟨0, 0.9, 0⟩
  else if i = THUMB_TIP then ⟨0, 0.9, 0⟩
  else ⟨0, 0.5, 0⟩

/-- A concrete landmark set classified as "thumbs_up": all four fingers
curled and the thumb tip 0.25 above the wrist (vertical_diff = 0.25 > 0.15). -/
def lmThumbsUp : Landmarks := fun i =>
  if i = INDEX_TIP then ⟨0, 0.7, 0⟩
  else if i = MIDDLE_TIP then ⟨0, 0.7, 0⟩
  else if i = RING_TIP then ⟨0, 0.7, 0⟩
  else if i = PINKY_TIP then ⟨0, 0.7, 0⟩
  else if i = WRIST then ⟨0, 0.9, 0⟩
  else if i = THUMB_TIP then ⟨0, 0.65, 0⟩
  else ⟨0, 0.5, 0⟩

/-- A concrete landmark set classified as "fist": all four fingers curled and
the thumb tip 0.10 from the palm center (tucked), 0.10 above the wrist. -/
def lmFist : Landmarks := fun i =>
  if i = INDEX_TIP then ⟨0, 0.7, 0⟩
  else if i = MIDDLE_TIP then ⟨0, 0.7, 0⟩
  else if i = RING_TIP then ⟨0, 0.7, 0⟩
  else if i = PINKY_TIP then ⟨0, 0.7, 0⟩
  else if i = WRIST then ⟨0, 0.9, 0⟩
  else if i = THUMB_TIP then ⟨0, 0.8, 0⟩
  else ⟨0, 0.5, 0⟩

/-- A 17-frame scenario, every frame with a hand present: five "peace"
frames (the fifth stabilizes and dispatches at time 5), six raw-`None`
frames during which the stabilized label falls back to `None` while the hand
stays present, then six more "peace" frames so that "peace" restabilizes at
time 17, well past the cooldown of the dispatch at time 5. -/
def c1Run : List (Option Landmarks × ℚ) :=
  [(some lmPeace, 1), (some lmPeace, 2), (some lmPeace, 3), (some lmPeace, 4),
   (some lmPeace, 5),
   (some lmNoGesture, 6), (some lmNoGesture, 7), (some lmNoGesture, 8),
   (some lmNoGesture, 9), (some lmNoGesture, 10), (some lmNoGesture, 11),
   (some lmPeace, 12), (some lmPeace, 13), (some lmPeace, 14),
   (some lmPeace, 15), (some lmPeace, 16), (some lmPeace, 17)]

/-- A full 10-frame buffer in which "peace" and "fist" are genuinely tied
for the highest count (3 each, "peace" occurring first) and no other label
occurs; 3 is below the 60% threshold, so the stabilizer returns `None`. -/
def c9TieBuffer : List (Option String) :=
  [some "peace", some "fist", some "peace", some "fist", some "peace",
   some "fist", none, none, none, none]

/- Helper lemmas about the dispatch gate. -/

/-- Within the cooldown window `_trigger_gesture` returns immediately:
no callback and no state change. -/
theorem triggerGesture_of_cooldown (s : ControllerState) (g : String) (t : ℚ)
    (h : t - s.last_gesture_time < GESTURE_COOLDOWN) :
    triggerGesture s g t = (s, none) := by
  unfold triggerGesture
  rw [if_pos h]

/-- When the incoming label equals the last triggered label,
`_trigger_gesture` returns without callback or state change. -/
theorem triggerGesture_of_same (s : ControllerState) (g : String) (t : ℚ)
    (h : some g = s.last_triggered_gesture) :
    triggerGesture s g t = (s, none) := by
  unfold triggerGesture
  by_cases hc : t - s.last_gesture_time < GESTURE_COOLDOWN
  · rw [if_pos hc]
  · rw [if_neg hc, if_pos h]

/-- If `_trigger_gesture` invoked the callback, it recorded the current time
as `last_gesture_time`. -/
theorem triggerGesture_time_of_event (s : ControllerState) (g : String)
    (t : ℚ) (e : String × String) (h : (triggerGesture s g t).2 = some e) :
    (triggerGesture s g t).1.last_gesture_time = t := by
  unfold triggerGesture at h ⊢
  split_ifs at h ⊢
  cases hl : lookupAction g
  · simp [hl] at h
  · simp [hl]

/-- `_trigger_gesture` never touches the history buffer. -/
theorem triggerGesture_history (s : ControllerState) (g : String) (t : ℚ) :
    (triggerGesture s g t).1.gesture_history = s.gesture_history := by
  unfold triggerGesture
  split_ifs
  · rfl
  · rfl
  · cases lookupAction g <;> rfl

/-- Appending to the history deque grows it by at most one element. -/
theorem dequeAppend_length_le (cap : Nat) (h : List (Option String))
    (g : Option String) : (dequeAppend cap h g).length ≤ h.length + 1 := by
  simp [dequeAppend]

/-- A buffer with fewer than 5 samples never stabilizes. -/
theorem stableOfBuffer_short (h : List (Option String)) (hlen : h.length < 5) :
    stableOfBuffer h = none := by
  unfold stableOfBuffer
  rw [if_pos hlen]

/-- Behaviour of `process_frame` on a hand frame whose stabilized label is
`None`: buffer updated, no trigger, no callback. -/
theorem processFrame_some_of_none (s : ControllerState) (lm : Landmarks)
    (t : ℚ)
    (hsg : stableOfBuffer (dequeAppend 10 s.gesture_history (detectGesture lm)) = none) :
    processFrame s (some lm) t =
      ({ s with gesture_history := dequeAppend 10 s.gesture_history (detectGesture lm) },
        none, none) := by
  unfold processFrame getStableGesture
  simp only [hsg]

/-- Behaviour of `process_frame` on a hand frame whose stabilized label is
`g`: buffer updated, then `_trigger_gesture` runs on the updated state. -/
theorem processFrame_some_of_some (s : ControllerState) (lm : Landmarks)
    (t : ℚ) (g : String)
    (hsg : stableOfBuffer (dequeAppend 10 s.gesture_history (detectGesture lm)) = some g) :
    processFrame s (some lm) t =
      ((triggerGesture
          { s with gesture_history := dequeAppend 10 s.gesture_history (detectGesture lm) }
          g t).1,
        some g,
        (triggerGesture
          { s with gesture_history := dequeAppend 10 s.gesture_history (detectGesture lm) }
          g t).2) := by
  unfold processFrame getStableGesture
  simp only [hsg]

/-- One processed frame cannot grow the history by more than one entry, and
if the history is still shorter than 5 after the frame, the frame's
stabilized output is `None`. -/
theorem processFrame_step (s : ControllerState) (f : Option Landmarks)
    (t : ℚ) :
    (processFrame s f t).1.gesture_history.length ≤ s.gesture_history.length + 1 ∧
      (s.gesture_history.length + 1 < 5 → (processFrame s f t).2.1 = none) := by
  cases f with
  | none =>
    exact ⟨by simp [processFrame], fun _ => by simp [processFrame]⟩
  | some lm =>
    have hle := dequeAppend_length_le 10 s.gesture_history (detectGesture lm)
    constructor
    · cases hsg : stableOfBuffer (dequeAppend 10 s.gesture_history (detectGesture lm)) with
      | none => rw [processFrame_some_of_none s lm t hsg]; exact hle
      | some g =>
        rw [processFrame_some_of_some s lm t g hsg, triggerGesture_history]
        exact hle
    · intro hlt
      have hshort : (dequeAppend 10 s.gesture_history (detectGesture lm)).length < 5 := by
        omega
      rw [processFrame_some_of_none s lm t (stableOfBuffer_short _ hshort)]

/-- Any run of at most `4 - (initial history length)` frames keeps every
stabilized output at `None`: the buffer never reaches the 5-sample minimum. -/
theorem processFrames_short (fs : List (Option Landmarks × ℚ)) :
    ∀ s : ControllerState, s.gesture_history.length + fs.length ≤ 4 →
      ∀ out ∈ (processFrames s fs).2, out.1 = none := by
  induction fs with
  | nil => intro s _ out hout; simp [processFrames] at hout
  | cons ft rest ih =>
    intro s hlen out hout
    obtain ⟨f, t⟩ := ft
    obtain ⟨hstep, hnone⟩ := processFrame_step s f t
    simp only [processFrames, List.mem_cons] at hout
    rcases hout with hout | hout
    · subst hout
      exact hnone (by simp at hlen; omega)
    · exact ih (processFrame s f t).1 (by simp at hlen; omega) out hout

/-- C3: for a landmark set with all four fingers curled and a directional
thumb (vertical_diff > 0.15 or < -0.10), `detect_gesture` returns thumbs_up
(respectively thumbs_down) and never fist, because thumbs_up and thumbs_down
are checked before fist in the priority chain. -/
theorem claim_c3 (lm : Landmarks)
    (hi : (getFingerState lm).index = false)
    (hm : (getFingerState lm).middle = false)
    (hr : (getFingerState lm).ring = false)
    (hp : (getFingerState lm).pinky = false)
    (hdir : (lm WRIST).y - (lm THUMB_TIP).y > 0.15 ∨
      (lm WRIST).y - (lm THUMB_TIP).y < -0.10) :
    ((lm WRIST).y - (lm THUMB_TIP).y > 0.15 → detectGesture lm = some "thumbs_up") ∧
    ((lm WRIST).y - (lm THUMB_TIP).y < -0.10 → detectGesture lm = some "thumbs_down") ∧
    detectGesture lm ≠ some "fist" := by
  have hU : ∀ _ : (lm WRIST).y - (lm THUMB_TIP).y > 0.15,
      detectGesture lm = some "thumbs_up" := by
    intro hv
    have hdu : getThumbDirection lm = ThumbDirection.up := by
      simp only [getThumbDirection]
      rw [if_pos hv]
    simp [detectGesture, isThumbUp, hdu, hi, hm, hr, hp]
  have hD : ∀ _ : (lm WRIST).y - (lm THUMB_TIP).y < -0.10,
      detectGesture lm = some "thumbs_down" := by
    intro hv
    have hno : ¬ (lm WRIST).y - (lm THUMB_TIP).y > 0.15 := by
      have h015 : (-0.10 : ℚ) < 0.15 := by norm_num
      linarith
    have hdd : getThumbDirection lm = ThumbDirection.down := by
      simp only [getThumbDirection]
      rw [if_neg hno, if_pos hv]
    simp [detectGesture, isThumbUp, isThumbDown, hdd, hi, hm, hr, hp]
  refine ⟨hU, hD, ?_⟩
  rcases hdir with hv | hv
  · rw [hU hv]; decide
  · rw [hD hv]; decide

/-- Witness for C3 at the concrete thumbs-up landmark set (all fingers
curled, vertical_diff = 0.25). -/
theorem claim_c3_witness :
    ((lmThumbsUp WRIST).y - (lmThumbsUp THUMB_TIP).y > 0.15 →
      detectGesture lmThumbsUp = some "thumbs_up") ∧
    ((lmThumbsUp WRIST).y - (lmThumbsUp THUMB_TIP).y < -0.10 →
      detectGesture lmThumbsUp = some "thumbs_down") ∧
    detectGesture lmThumbsUp ≠ some "fist" :=
  claim_c3 lmThumbsUp (by with_unfolding_all rfl) (by with_unfolding_all rfl)
    (by with_unfolding_all rfl) (by with_unfolding_all rfl)
    (Or.inl (of_decide_eq_true (by with_unfolding_all rfl)))

/-- C8: with all four fingers curled and the classification not thumbs_up or
thumbs_down (point_up, peace and open_palm are impossible with all fingers
curled), `detect_gesture` returns fist exactly when the thumb tip lies
within 0.15 of the palm center (average of index-MCP and wrist) on both
axes, or the absolute vertical distance between thumb tip and wrist is
below 0.12. -/
theorem claim_c8 (lm : Landmarks)
    (hi : (getFingerState lm).index = false)
    (hm : (getFingerState lm).middle = false)
    (hr : (getFingerState lm).ring = false)
    (hp : (getFingerState lm).pinky = false)
    (hnu : detectGesture lm ≠ some "thumbs_up")
    (hnd : detectGesture lm ≠ some "thumbs_down") :
    (detectGesture lm = some "fist" ↔
      ((|(lm THUMB_TIP).x - ((lm INDEX_MCP).x + (lm WRIST).x) / 2| < 0.15 ∧
        |(lm THUMB_TIP).y - ((lm INDEX_MCP).y + (lm WRIST).y) / 2| < 0.15) ∨
       |(lm WRIST).y - (lm THUMB_TIP).y| < 0.12)) := by
  have hu : isThumbUp lm (getFingerState lm) = false := by
    cases hb : isThumbUp lm (getFingerState lm)
    · rfl
    · exact absurd (by simp [detectGesture, hb]) hnu
  have hd : isThumbDown lm (getFingerState lm) = false := by
    cases hb : isThumbDown lm (getFingerState lm)
    · rfl
    · exact absurd (by simp [detectGesture, hu, hb]) hnd
  have hfist : detectGesture lm =
      (if isFist lm (getFingerState lm) = true then some "fist" else none) := by
    simp [detectGesture, isPointingUp, isPeaceSign, isOpenPalm, hu, hd, hi, hm, hr, hp]
  have hiff : isFist lm (getFingerState lm) = true ↔
      ((|(lm THUMB_TIP).x - ((lm INDEX_MCP).x + (lm WRIST).x) / 2| < 0.15 ∧
        |(lm THUMB_TIP).y - ((lm INDEX_MCP).y + (lm WRIST).y) / 2| < 0.15) ∨
       |(lm WRIST).y - (lm THUMB_TIP).y| < 0.12) := by
    simp [isFist, hi, hm, hr, hp]
  rw [hfist]
  by_cases hb : isFist lm (getFingerState lm) = true
  · rw [if_pos hb]
    exact iff_of_true rfl (hiff.mp hb)
  · rw [if_neg hb]
    exact iff_of_false (by simp) (fun hP => hb (hiff.mpr hP))

/-- Witness for C8 at the concrete fist landmark set (thumb tucked 0.10 from
the palm center). -/
theorem claim_c8_witness :
    (detectGesture lmFist = some "fist" ↔
      ((|(lmFist THUMB_TIP).x - ((lmFist INDEX_MCP).x + (lmFist WRIST).x) / 2| < 0.15 ∧
        |(lmFist THUMB_TIP).y - ((lmFist INDEX_MCP).y + (lmFist WRIST).y) / 2| < 0.15) ∨
       |(lmFist WRIST).y - (lmFist THUMB_TIP).y| < 0.12)) :=
  claim_c8 lmFist (by with_unfolding_all rfl) (by with_unfolding_all rfl)
    (by with_unfolding_all rfl) (by with_unfolding_all rfl)
    (by with_unfolding_all decide) (by with_unfolding_all decide)

/-- C4: below the cooldown the dispatch gate performs no callback and leaves
both the last-dispatched label and the last-dispatch timestamp unchanged;
consequently, after a successful dispatch at time t₁, any stabilized label
arriving at t₂ with t₂ - t₁ below the cooldown produces no callback. -/
theorem claim_c4 :
    (∀ (s : ControllerState) (g : String) (t : ℚ),
      t - s.last_gesture_time < GESTURE_COOLDOWN → triggerGesture s g t = (s, none)) ∧
    (∀ (s : ControllerState) (g₁ g₂ : String) (t₁ t₂ : ℚ) (e : String × String),
      (triggerGesture s g₁ t₁).2 = some e → t₂ - t₁ < GESTURE_COOLDOWN →
      triggerGesture (triggerGesture s g₁ t₁).1 g₂ t₂ =
        ((triggerGesture s g₁ t₁).1, none)) := by
  refine ⟨triggerGesture_of_cooldown, ?_⟩
  intro s g₁ g₂ t₁ t₂ e he hlt
  apply triggerGesture_of_cooldown
  rw [triggerGesture_time_of_event s g₁ t₁ e he]
  exact hlt

/-- Witness for C4: a call 0.5 time-units after the initial timestamp is
suppressed, and a dispatch of "peace" at time 2 suppresses "fist" at 2.5. -/
theorem claim_c4_witness :
    triggerGesture initialState "peace" 0.5 = (initialState, none) ∧
    triggerGesture (triggerGesture initialState "peace" 2).1 "fist" 2.5 =
      ((triggerGesture initialState "peace" 2).1, none) := by
  constructor
  · exact claim_c4.1 initialState "peace" 0.5
      (of_decide_eq_true (by with_unfolding_all rfl))
  · exact claim_c4.2 initialState "peace" "fist" 2 2.5 ("peace", "previous_page")
      (by with_unfolding_all rfl) (of_decide_eq_true (by with_unfolding_all rfl))

/-- C5: a no-hand frame clears the history buffer entirely and resets the
last-dispatched label to none; from the cleared state every run of at most 4
further frames yields only `None` stabilized outputs, so at least 5 fresh
frames are needed before the stabilizer can return a non-None label again. -/
theorem claim_c5 (s : ControllerState) (t : ℚ)
    (fs : List (Option Landmarks × ℚ)) (hlen : fs.length ≤ 4) :
    (processFrame s none t).1.gesture_history = [] ∧
    (processFrame s none t).1.last_triggered_gesture = none ∧
    ∀ out ∈ (processFrames (processFrame s none t).1 fs).2, out.1 = none := by
  refine ⟨rfl, rfl, ?_⟩
  apply processFrames_short
  have hh : (processFrame s none t).1.gesture_history = [] := rfl
  rw [hh]
  simpa using hlen

/-- Witness for C5: a hand-loss frame followed by a single "peace" frame,
whose stabilized output is `None`. -/
theorem claim_c5_witness :
    (processFrame initialState none 0).1.gesture_history = [] ∧
    ((none : Option String), (none : Option (String × String))).1 = none := by
  have h := claim_c5 initialState 0 [(some lmPeace, 1)] (by decide)
  refine ⟨h.1, h.2.2 ((none : Option String), (none : Option (String × String))) ?_⟩
  have hev : (processFrames (processFrame initialState none 0).1
      [(some lmPeace, 1)]).2 =
      [((none : Option String), (none : Option (String × String)))] := by
    with_unfolding_all rfl
  rw [hev]
  exact List.mem_singleton.mpr rfl

/-- C6: whenever the history buffer holds fewer than 5 samples after the
current raw label has been appended, the stabilizer returns none regardless
of the buffer's content. -/
theorem claim_c6 (history : List (Option String)) (current : Option String)
    (h : (dequeAppend 10 history current).length < 5) :
    (getStableGesture history current).2 = none := by
  unfold getStableGesture
  exact stableOfBuffer_short _ h

/-- Witness for C6: a freshly cleared buffer receiving one "peace" label. -/
theorem claim_c6_witness : (getStableGesture [] (some "peace")).2 = none :=
  claim_c6 [] (some "peace") (by decide)

/-- C7: past the cooldown and change-detection checks, an unmapped gesture
updates the last-dispatched label and timestamp without invoking the
callback, while a mapped gesture additionally invokes the callback exactly
once with the (gesture, action) pair. -/
theorem claim_c7 (s : ControllerState) (g : String) (t : ℚ)
    (hcool : ¬ t - s.last_gesture_time < GESTURE_COOLDOWN)
    (hchange : ¬ some g = s.last_triggered_gesture) :
    (lookupAction g = none →
      triggerGesture s g t =
        ({ s with last_triggered_gesture := some g, last_gesture_time := t }, none)) ∧
    (∀ a, lookupAction g = some a →
      triggerGesture s g t =
        ({ s with last_triggered_gesture := some g, last_gesture_time := t },
          some (g, a))) := by
  constructor
  · intro hl
    unfold triggerGesture
    rw [if_neg hcool, if_neg hchange]
    simp [hl]
  · intro a hl
    unfold triggerGesture
    rw [if_neg hcool, if_neg hchange]
    simp [hl]

/-- Witness for C7: the unmapped label "wave" updates state without a
callback; the mapped label "peace" dispatches ("peace", "previous_page"). -/
theorem claim_c7_witness :
    triggerGesture initialState "wave" 2 =
      ({ initialState with
          last_triggered_gesture := some "wave"
          last_gesture_time := 2 }, none) ∧
    triggerGesture initialState "peace" 2 =
      ({ initialState with
          last_triggered_gesture := some "peace"
          last_gesture_time := 2 }, some ("peace", "previous_page")) := by
  constructor
  · exact (claim_c7 initialState "wave" 2
      (of_decide_eq_true (by with_unfolding_all rfl)) (by decide)).1 (by decide)
  · exact (claim_c7 initialState "peace" 2
      (of_decide_eq_true (by with_unfolding_all rfl)) (by decide)).2
      "previous_page" (by decide)

/-- A frame processed while its timestamp is still inside the cooldown
window of the state's last dispatch emits no callback and leaves the
last-dispatch timestamp unchanged, whatever its stabilized label is. -/
theorem processFrame_cooldown_frozen (s : ControllerState)
    (f : Option Landmarks) (t : ℚ)
    (h : t - s.last_gesture_time < GESTURE_COOLDOWN) :
    (processFrame s f t).1.last_gesture_time = s.last_gesture_time ∧
    (processFrame s f t).2.2 = none := by
  cases f with
  | none => exact ⟨rfl, rfl⟩
  | some lm =>
    cases hsg : stableOfBuffer (dequeAppend 10 s.gesture_history (detectGesture lm)) with
    | none =>
      rw [processFrame_some_of_none s lm t hsg]
      exact ⟨rfl, rfl⟩
    | some g =>
      rw [processFrame_some_of_some s lm t g hsg]
      rw [triggerGesture_of_cooldown
        { s with gesture_history := dequeAppend 10 s.gesture_history (detectGesture lm) }
        g t h]
      exact ⟨rfl, rfl⟩

/-- A whole run of frames each timestamped inside the cooldown window of the
initial state's last dispatch emits no callback at any frame, and the
last-dispatch timestamp never moves. -/
theorem processFrames_cooldown_frozen (fs : List (Option Landmarks × ℚ)) :
    ∀ s : ControllerState,
      (∀ ft ∈ fs, ft.2 - s.last_gesture_time < GESTURE_COOLDOWN) →
      (processFrames s fs).1.last_gesture_time = s.last_gesture_time ∧
      ∀ out ∈ (processFrames s fs).2, out.2 = none := by
  induction fs with
  | nil =>
    intro s _
    exact ⟨rfl, by intro out hout; simp [processFrames] at hout⟩
  | cons ft rest ih =>
    intro s hall
    obtain ⟨f, t⟩ := ft
    have hft : t - s.last_gesture_time < GESTURE_COOLDOWN :=
      hall (f, t) (List.mem_cons_self _ _)
    obtain ⟨htime, hev⟩ := processFrame_cooldown_frozen s f t hft
    have hrest : ∀ ft' ∈ rest,
        ft'.2 - (processFrame s f t).1.last_gesture_time < GESTURE_COOLDOWN := by
      intro ft' hft'
      rw [htime]
      exact hall ft' (List.mem_cons_of_mem _ hft')
    obtain ⟨htime', hev'⟩ := ih (processFrame s f t).1 hrest
    constructor
    · show (processFrames (processFrame s f t).1 rest).1.last_gesture_time =
        s.last_gesture_time
      rw [htime', htime]
    · intro out hout
      simp only [processFrames, List.mem_cons] at hout
      rcases hout with rfl | hout
      · exact hev
      · exact hev' out hout

/-- C10: a hand-loss frame resets the last-dispatched label and clears the
history but leaves the last-dispatch timestamp unchanged; consequently any
run of frames after the hand-loss whose timestamps all lie inside the
cooldown window of a dispatch made before the hand was lost produces no
callback — even when it is long enough for a gesture to restabilize. -/
theorem claim_c10 (s : ControllerState) (t : ℚ) :
    (processFrame s none t).1.last_gesture_time = s.last_gesture_time ∧
    (processFrame s none t).1.gesture_history = [] ∧
    (processFrame s none t).1.last_triggered_gesture = none ∧
    (∀ fs : List (Option Landmarks × ℚ),
      (∀ ft ∈ fs, ft.2 - s.last_gesture_time < GESTURE_COOLDOWN) →
      ∀ out ∈ (processFrames (processFrame s none t).1 fs).2, out.2 = none) := by
  refine ⟨rfl, rfl, rfl, ?_⟩
  intro fs hall
  refine (processFrames_cooldown_frozen fs (processFrame s none t).1 ?_).2
  intro ft hft
  have hsame : (processFrame s none t).1.last_gesture_time =
      s.last_gesture_time := rfl
  rw [hsame]
  exact hall ft hft

/-- Witness for C10: a dispatch at time 5, hand-loss at 5.05, then five
"peace" frames at 5.1–5.5; the fifth genuinely restabilizes "peace" (output
`some "peace"`) yet its callback slot is empty, suppressed purely by the
preserved pre-hand-loss timestamp. -/
theorem claim_c10_witness :
    (processFrame ⟨[], some "peace", 5⟩ none 5.05).1.last_gesture_time = 5 ∧
    ((some "peace" : Option String), (none : Option (String × String))).2 = none := by
  have h := claim_c10 ⟨[], some "peace", 5⟩ 5.05
  refine ⟨h.1, h.2.2.2
    [(some lmPeace, 5.1), (some lmPeace, 5.2), (some lmPeace, 5.3),
     (some lmPeace, 5.4), (some lmPeace, 5.5)]
    (of_decide_eq_true (by with_unfolding_all rfl))
    ((some "peace" : Option String), (none : Option (String × String))) ?_⟩
  have hev : (processFrames (processFrame ⟨[], some "peace", 5⟩ none 5.05).1
      [(some lmPeace, 5.1), (some lmPeace, 5.2), (some lmPeace, 5.3),
       (some lmPeace, 5.4), (some lmPeace, 5.5)]).2 =
      [(none, none), (none, none), (none, none), (none, none),
       ((some "peace" : Option String), (none : Option (String × String)))] := by
    with_unfolding_all rfl
  rw [hev]
  simp

/-- C1 counterexample: a concrete 17-frame run (`c1Run`) refuting the claim.
Every frame has a hand present. "peace" stabilizes and is dispatched at time
5 (the only callback of the whole run); during the six raw-`None` frames the
stabilized label returns to `None` with the hand still present (outputs
9-16); "peace" stabilizes again at time 17 with the cooldown long elapsed
(17 - 5 ≥ 1), yet no second callback occurs: an intervening stabilized
"none" does not clear the last-dispatched memory. -/
theorem claim_c1_counterexample :
    ((processFrames initialState c1Run).2.map (fun out => out.2)) =
      [none, none, none, none, some ("peace", "previous_page"), none, none, none,
       none, none, none, none, none, none, none, none, none] ∧
    ((processFrames initialState c1Run).2.map (fun out => out.1)) =
      [none, none, none, none, some "peace", some "peace", some "peace", some "peace",
       none, none, none, none, none, none, none, none, some "peace"] ∧
    (17 : ℚ) - 5 ≥ GESTURE_COOLDOWN :=
  ⟨by with_unfolding_all rfl, by with_unfolding_all rfl,
    of_decide_eq_true (by with_unfolding_all rfl)⟩

/-- C1 amended: with the hand still present, a frame whose stabilized label
is `None` leaves the last-dispatched label unchanged (only hand-loss clears
it), and a stabilized label equal to the last dispatched one is suppressed
even after the cooldown has elapsed — so the callback is not invoked a
second time in the claimed scenario. -/
theorem claim_c1_amended :
    (∀ (s : ControllerState) (lm : Landmarks) (t : ℚ),
      stableOfBuffer (dequeAppend 10 s.gesture_history (detectGesture lm)) = none →
      (processFrame s (some lm) t).1.last_triggered_gesture =
        s.last_triggered_gesture ∧
      (processFrame s (some lm) t).2.2 = none) ∧
    (∀ (s : ControllerState) (g : String) (t : ℚ),
      s.last_triggered_gesture = some g → triggerGesture s g t = (s, none)) := by
  constructor
  · intro s lm t hsg
    rw [processFrame_some_of_none s lm t hsg]
    exact ⟨rfl, rfl⟩
  · intro s g t h
    exact triggerGesture_of_same s g t h.symm

/-- Witness for C1 (amended): a first "peace" frame from the initial state
stabilizes to `None` and keeps the empty last-dispatched label, and a
repeated "peace" after its own dispatch is suppressed at time 17. -/
theorem claim_c1_amended_witness :
    ((processFrame initialState (some lmPeace) 1).1.last_triggered_gesture =
        initialState.last_triggered_gesture ∧
      (processFrame initialState (some lmPeace) 1).2.2 = none) ∧
    triggerGesture ⟨[], some "peace", 5⟩ "peace" 17 =
      (⟨[], some "peace", 5⟩, none) :=
  ⟨claim_c1_amended.1 initialState lmPeace 1 (by with_unfolding_all rfl),
   claim_c1_amended.2 ⟨[], some "peace", 5⟩ "peace" 17 rfl⟩

/- Theory of the insertion-ordered `gesture_counts` dict, needed for the
majority-threshold and tie-break claims. -/

/-- Appending any frame does not move the first occurrence of a label that
already occurs in the buffer. -/
theorem firstIdx_append_of_mem (l : List (Option String)) (x : Option String)
    (g : String) (hg : some g ∈ l) : firstIdx (l ++ [x]) g = firstIdx l g := by
  unfold firstIdx
  rw [List.findIdx_append, if_pos]
  exact List.findIdx_lt_length.mpr ⟨some g, hg, by simp⟩

/-- The first occurrence of a label first appearing in the appended frame is
at the end of the old buffer. -/
theorem firstIdx_append_self (l : List (Option String)) (g : String)
    (hg : some g ∉ l) : firstIdx (l ++ [some g]) g = l.length := by
  unfold firstIdx
  have hnone : List.findIdx (fun o => o == some g) l = l.length :=
    List.findIdx_eq_length.mpr (fun x hx => by
      simp only [beq_eq_false_iff_ne]
      rintro rfl
      exact hg hx)
  rw [List.findIdx_append, hnone, if_neg (lt_irrefl _)]
  simp [List.findIdx_cons]

/-- A label occurring in the buffer has its first occurrence inside it. -/
theorem firstIdx_lt_length (l : List (Option String)) (g : String)
    (hg : some g ∈ l) : firstIdx l g < l.length :=
  List.findIdx_lt_length.mpr ⟨some g, hg, by simp⟩

/-- Counting a label after appending one frame. -/
theorem countIn_append (l : List (Option String)) (x : Option String)
    (g : String) :
    countIn (l ++ [x]) g = countIn l g + (if x = some g then 1 else 0) := by
  unfold countIn
  rw [List.count_append]
  congr 1
  simp [List.count_cons]

/-- A label has positive count exactly when it occurs in the buffer. -/
theorem countIn_pos (l : List (Option String)) (g : String) :
    0 < countIn l g ↔ some g ∈ l :=
  List.count_pos_iff

/-- Counting a label after prepending one frame. -/
theorem countIn_cons (x : Option String) (tl : List (Option String))
    (g : String) :
    countIn (x :: tl) g = countIn tl g + (if x = some g then 1 else 0) := by
  unfold countIn
  rw [List.count_cons]
  simp

/-- Two distinct labels occupy disjoint frames, so their counts sum to at
most the buffer length. -/
theorem countIn_add_le (h : List (Option String)) (g g' : String)
    (hne : g ≠ g') : countIn h g + countIn h g' ≤ h.length := by
  induction h with
  | nil => simp [countIn]
  | cons x tl ih =>
    rw [countIn_cons, countIn_cons, List.length_cons]
    by_cases hxg : x = some g
    · rw [if_pos hxg, if_neg (by rw [hxg]; simp only [Option.some.injEq]; exact hne)]
      omega
    · rw [if_neg hxg]
      by_cases hxg' : x = some g'
      · rw [if_pos hxg']
        omega
      · rw [if_neg hxg']
        omega

/-- Appending a raw-`None` frame leaves the counts dict unchanged. -/
theorem gestureCounts_snoc_none (l : List (Option String)) :
    gestureCounts (l ++ [none]) = gestureCounts l := by
  unfold gestureCounts
  rw [List.foldl_append]
  rfl

/-- Appending a labelled frame performs one insert-or-increment step on the
counts dict. -/
theorem gestureCounts_snoc_some (l : List (Option String)) (g₀ : String) :
    gestureCounts (l ++ [some g₀]) = gestureCountsStep (gestureCounts l) g₀ := by
  unfold gestureCounts
  rw [List.foldl_append]
  rfl

/-- Invariant of the `gesture_counts` dict built by `_get_stable_gesture`:
every entry stores the exact occurrence count of its key, a key is present
exactly when its label occurs in the buffer, and the keys appear in strictly
increasing order of first occurrence (CPython dict insertion order). -/
theorem gestureCounts_spec (h : List (Option String)) :
    (∀ p ∈ gestureCounts h, p.2 = countIn h p.1) ∧
    (∀ g : String, g ∈ (gestureCounts h).map Prod.fst ↔ 0 < countIn h g) ∧
    ((gestureCounts h).map Prod.fst).Pairwise
      (fun a b => firstIdx h a < firstIdx h b) := by
  induction h using List.reverseRecOn with
  | nil =>
    refine ⟨?_, ?_, ?_⟩ <;> simp [gestureCounts, countIn]
  | append_singleton l x ih =>
    obtain ⟨ihv, ihm, ihp⟩ := ih
    cases x with
    | none =>
      rw [gestureCounts_snoc_none]
      have hcount : ∀ g, countIn (l ++ [none]) g = countIn l g := fun g => by
        rw [countIn_append]; simp
      refine ⟨?_, ?_, ?_⟩
      · intro p hp; rw [hcount]; exact ihv p hp
      · intro g; rw [hcount]; exact ihm g
      · refine List.Pairwise.imp_of_mem ?_ ihp
        intro a b ha hb hab
        have ha' : some a ∈ l := (countIn_pos l a).mp ((ihm a).mp ha)
        have hb' : some b ∈ l := (countIn_pos l b).mp ((ihm b).mp hb)
        rw [firstIdx_append_of_mem l none a ha', firstIdx_append_of_mem l none b hb']
        exact hab
    | some g₀ =>
      rw [gestureCounts_snoc_some]
      by_cases hmem : some g₀ ∈ l
      · have hkey : g₀ ∈ (gestureCounts l).map Prod.fst :=
          (ihm g₀).mpr ((countIn_pos l g₀).mpr hmem)
        have hany : (gestureCounts l).any (fun p => p.1 == g₀) = true := by
          rw [List.any_eq_true]
          obtain ⟨p, hp, hp1⟩ := List.mem_map.mp hkey
          exact ⟨p, hp, by simp [hp1]⟩
        unfold gestureCountsStep
        rw [if_pos hany]
        have hkeys : ((gestureCounts l).map
              (fun p => if p.1 == g₀ then (p.1, p.2 + 1) else p)).map Prod.fst =
            (gestureCounts l).map Prod.fst := by
          rw [List.map_map]
          apply List.map_congr_left
          intro p _
          by_cases hp : p.1 = g₀ <;> simp [hp]
        refine ⟨?_, ?_, ?_⟩
        · intro p hp
          obtain ⟨q, hq, rfl⟩ := List.mem_map.mp hp
          obtain ⟨q1, q2⟩ := q
          by_cases hq0 : q1 = g₀
          · rw [if_pos (by simpa using hq0)]
            have hv := ihv (q1, q2) hq
            simp only at hv ⊢
            rw [countIn_append, if_pos (by rw [hq0])]
            omega
          · rw [if_neg (by simpa using hq0)]
            have hv := ihv (q1, q2) hq
            simp only at hv ⊢
            rw [countIn_append, if_neg (by simp only [Option.some.injEq]; intro he; exact hq0 he.symm)]
            omega
        · intro g
          rw [hkeys, countIn_append]
          by_cases hgg : g = g₀
          · subst hgg
            rw [if_pos rfl]
            constructor
            · intro _; omega
            · intro _; exact hkey
          · rw [if_neg (by simp only [Option.some.injEq]; intro he; exact hgg he.symm)]
            simpa using ihm g
        · rw [hkeys]
          refine List.Pairwise.imp_of_mem ?_ ihp
          intro a b ha hb hab
          have ha' : some a ∈ l := (countIn_pos l a).mp ((ihm a).mp ha)
          have hb' : some b ∈ l := (countIn_pos l b).mp ((ihm b).mp hb)
          rw [firstIdx_append_of_mem l _ a ha', firstIdx_append_of_mem l _ b hb']
          exact hab
      · have hcnt0 : countIn l g₀ = 0 := by
          by_contra hne
          exact hmem ((countIn_pos l g₀).mp (Nat.pos_of_ne_zero hne))
        have hnokey : g₀ ∉ (gestureCounts l).map Prod.fst := by
          intro hk
          have := (ihm g₀).mp hk
          omega
        have hany : ¬ ((gestureCounts l).any (fun p => p.1 == g₀) = true) := by
          intro hk
          rw [List.any_eq_true] at hk
          obtain ⟨p, hp, hp1⟩ := hk
          exact hnokey (List.mem_map.mpr ⟨p, hp, by simpa using hp1⟩)
        unfold gestureCountsStep
        rw [if_neg hany]
        have hkeys : ((gestureCounts l) ++ [(g₀, 1)]).map Prod.fst =
            (gestureCounts l).map Prod.fst ++ [g₀] := by simp
        refine ⟨?_, ?_, ?_⟩
        · intro p hp
          rcases List.mem_append.mp hp with hp' | hp'
          · have hpk : p.1 ≠ g₀ := by
              intro he
              exact hnokey (he ▸ List.mem_map.mpr ⟨p, hp', rfl⟩)
            rw [countIn_append, if_neg (by simp only [Option.some.injEq]; intro he; exact hpk he.symm)]
            simpa using ihv p hp'
          · have hpe : p = (g₀, 1) := by simpa using hp'
            subst hpe
            rw [countIn_append, if_pos rfl]
            simp [hcnt0]
        · intro g
          rw [hkeys, countIn_append]
          by_cases hgg : g = g₀
          · subst hgg
            rw [if_pos rfl]
            simp
          · rw [if_neg (by simp only [Option.some.injEq]; intro he; exact hgg he.symm)]
            simp only [List.mem_append, List.mem_singleton]
            constructor
            · rintro (hk | hk)
              · simpa using (ihm g).mp hk
              · exact absurd hk hgg
            · intro hpos
              exact Or.inl ((ihm g).mpr (by simpa using hpos))
        · rw [hkeys]
          rw [List.pairwise_append]
          refine ⟨?_, ?_, ?_⟩
          · refine List.Pairwise.imp_of_mem ?_ ihp
            intro a b ha hb hab
            have ha' : some a ∈ l := (countIn_pos l a).mp ((ihm a).mp ha)
            have hb' : some b ∈ l := (countIn_pos l b).mp ((ihm b).mp hb)
            rw [firstIdx_append_of_mem l _ a ha', firstIdx_append_of_mem l _ b hb']
            exact hab
          · simp
          · intro a ha b hb
            rw [List.mem_singleton] at hb
            subst hb
            have ha' : some a ∈ l := (countIn_pos l a).mp ((ihm a).mp ha)
            rw [firstIdx_append_of_mem l _ a ha', firstIdx_append_self l b hmem]
            exact firstIdx_lt_length l a ha'

/-- Specification of the fold implementing Python's first-maximum `max`: the
result bounds every scanned count, and it is either the seed or an element of
the list strictly greater than the seed and every earlier scanned entry. -/
theorem pickMax_foldl_spec (ps : List (String × Nat)) :
    ∀ b : String × Nat,
      (∀ q ∈ b :: ps, q.2 ≤ (ps.foldl pickMax b).2) ∧
      (ps.foldl pickMax b = b ∨
        ∃ ps₁ ps₂, ps = ps₁ ++ (ps.foldl pickMax b) :: ps₂ ∧
          ∀ q ∈ b :: ps₁, q.2 < (ps.foldl pickMax b).2) := by
  induction ps with
  | nil =>
    intro b
    refine ⟨?_, Or.inl rfl⟩
    intro q hq
    rw [List.mem_singleton] at hq
    subst hq
    exact le_refl _
  | cons q ps ih =>
    intro b
    rw [List.foldl_cons]
    by_cases hqb : q.2 > b.2
    · have hpick : pickMax b q = q := by simp [pickMax, hqb]
      rw [hpick]
      obtain ⟨ihb, ihpos⟩ := ih q
      constructor
      · intro r hr
        rcases List.mem_cons.mp hr with heq | hr
        · subst heq
          exact le_trans (le_of_lt hqb) (ihb q (List.mem_cons_self q ps))
        · exact ihb r hr
      · right
        rcases ihpos with heq | ⟨ps₁, ps₂, hsplit, hlt⟩
        · refine ⟨[], ps, ?_, ?_⟩
          · rw [heq]
            rfl
          · intro r hr
            rw [List.mem_singleton] at hr
            subst hr
            rw [heq]
            exact hqb
        · refine ⟨q :: ps₁, ps₂, ?_, ?_⟩
          · rw [List.cons_append, ← hsplit]
          · intro r hr
            rcases List.mem_cons.mp hr with heq | hr
            · subst heq
              exact lt_trans hqb (hlt q (List.mem_cons_self q ps₁))
            · exact hlt r hr
    · have hpick : pickMax b q = b := by simp [pickMax, hqb]
      rw [hpick]
      obtain ⟨ihb, ihpos⟩ := ih b
      constructor
      · intro r hr
        rcases List.mem_cons.mp hr with heq | hr
        · subst heq
          exact ihb r (List.mem_cons_self r ps)
        · rcases List.mem_cons.mp hr with heq | hr
          · subst heq
            exact le_trans (Nat.le_of_not_lt hqb) (ihb b (List.mem_cons_self b ps))
          · exact ihb r (List.mem_cons_of_mem b hr)
      · rcases ihpos with heq | ⟨ps₁, ps₂, hsplit, hlt⟩
        · exact Or.inl heq
        · right
          refine ⟨q :: ps₁, ps₂, ?_, ?_⟩
          · rw [List.cons_append, ← hsplit]
          · intro r hr
            rcases List.mem_cons.mp hr with heq | hr
            · subst heq
              exact hlt r (List.mem_cons_self r ps₁)
            · rcases List.mem_cons.mp hr with heq | hr
              · subst heq
                exact lt_of_le_of_lt (Nat.le_of_not_lt hqb)
                  (hlt b (List.mem_cons_self b ps₁))
              · exact hlt r (List.mem_cons_of_mem b hr)

/-- Python's `max` over the counts dict returns an entry whose count bounds
every entry and which is preceded only by entries of strictly smaller count
(first maximum wins). -/
theorem maxByCount_spec (c : List (String × Nat)) (r : String × Nat)
    (h : maxByCount c = some r) :
    (∀ q ∈ c, q.2 ≤ r.2) ∧
      ∃ c₁ c₂, c = c₁ ++ r :: c₂ ∧ ∀ q ∈ c₁, q.2 < r.2 := by
  cases c with
  | nil => simp [maxByCount] at h
  | cons p ps =>
    have hr : ps.foldl pickMax p = r := by
      simpa [maxByCount] using h
    subst hr
    obtain ⟨hb, hpos⟩ := pickMax_foldl_spec ps p
    refine ⟨hb, ?_⟩
    rcases hpos with heq | ⟨ps₁, ps₂, hsplit, hlt⟩
    · refine ⟨[], ps, ?_, ?_⟩
      · rw [heq]
        rfl
      · intro q hq
        exact absurd hq (List.not_mem_nil q)
    · refine ⟨p :: ps₁, ps₂, ?_, fun q hq => hlt q hq⟩
      rw [List.cons_append, ← hsplit]

/-- Inversion of a successful stabilization: the buffer has at least 5
entries, the returned label is the first-maximum of the counts dict with its
exact count, and that count meets the 60% threshold. -/
theorem stableOfBuffer_inv (h : List (Option String)) (g : String)
    (hs : stableOfBuffer h = some g) :
    ¬ h.length < 5 ∧
    maxByCount (gestureCounts h) = some (g, countIn h g) ∧
    ((countIn h g : ℚ) ≥ (h.length : ℚ) * 0.6) := by
  unfold stableOfBuffer at hs
  split at hs
  · exact absurd hs (by simp)
  · next h5 =>
    split at hs
    · exact absurd hs (by simp)
    · next mc n heq =>
      split at hs
      · next hth =>
        have hg : mc = g := by simpa using hs
        subst hg
        have hn : n = countIn h mc := by
          obtain ⟨hub, c₁, c₂, hsplit, hlt⟩ := maxByCount_spec _ _ heq
          have hmem : (mc, n) ∈ gestureCounts h := by
            rw [hsplit]
            exact List.mem_append.mpr (Or.inr (List.mem_cons_self _ _))
          exact (gestureCounts_spec h).1 (mc, n) hmem
        refine ⟨h5, ?_, ?_⟩
        · rw [← hn]
          exact heq
        · rw [← hn]
          exact hth
      · exact absurd hs (by simp)

/-- When one single label accounts for every non-`None` frame of the buffer,
the counts dict is the singleton holding its exact count. -/
theorem gestureCounts_single (h : List (Option String)) (g : String)
    (hpos : 0 < countIn h g) (hall : ∀ x ∈ h, x = some g ∨ x = none) :
    gestureCounts h = [(g, countIn h g)] := by
  obtain ⟨hval, hmem, hpair⟩ := gestureCounts_spec h
  have hallkeys : ∀ k ∈ (gestureCounts h).map Prod.fst, k = g := by
    intro k hk
    have hkobs : some k ∈ h := (countIn_pos h k).mp ((hmem k).mp hk)
    rcases hall (some k) hkobs with hx | hx
    · exact Option.some.inj hx
    · simp at hx
  have hgk : g ∈ (gestureCounts h).map Prod.fst := (hmem g).mpr hpos
  rcases hc : gestureCounts h with _ | ⟨p, ps⟩
  · rw [hc] at hgk
    simp at hgk
  · rcases ps with _ | ⟨q, qs⟩
    · obtain ⟨p1, p2⟩ := p
      have hp1 : p1 = g := hallkeys p1 (by rw [hc]; simp)
      have hp2 : p2 = countIn h p1 := by
        simpa using hval (p1, p2) (by rw [hc]; exact List.mem_cons_self _ _)
      subst hp1
      rw [hp2]
    · exfalso
      have h1 : p.1 = g := hallkeys p.1 (by rw [hc]; simp)
      have h2 : q.1 = g := hallkeys q.1 (by rw [hc]; simp)
      rw [hc] at hpair
      simp only [List.map_cons] at hpair
      have hrel := (List.pairwise_cons.mp hpair).1 q.1 (by simp)
      rw [h1, h2] at hrel
      exact lt_irrefl _ hrel

/-- C2: a 10-frame buffer with exactly 6 "peace" frames and 4 `None` frames
stabilizes to "peace" (6 ≥ 0.6·10); with exactly 5 "peace" frames it returns
none; and in general a label is returned only if its count is at least 60%
of the buffer's current length, `None` entries included in the length. -/
theorem claim_c2 :
    (∀ h : List (Option String), h.length = 10 → countIn h "peace" = 6 →
      (∀ x ∈ h, x = some "peace" ∨ x = none) → stableOfBuffer h = some "peace") ∧
    (∀ h : List (Option String), h.length = 10 → countIn h "peace" = 5 →
      (∀ x ∈ h, x = some "peace" ∨ x = none) → stableOfBuffer h = none) ∧
    (∀ (h : List (Option String)) (g : String), stableOfBuffer h = some g →
      10 * countIn h g ≥ 6 * h.length) := by
  refine ⟨?_, ?_, ?_⟩
  · intro h hlen hcount hall
    have hsingle := gestureCounts_single h "peace" (by omega) hall
    unfold stableOfBuffer
    rw [hsingle, hcount, hlen]
    simp only [maxByCount, List.foldl_nil]
    norm_num
  · intro h hlen hcount hall
    have hsingle := gestureCounts_single h "peace" (by omega) hall
    unfold stableOfBuffer
    rw [hsingle, hcount, hlen]
    simp only [maxByCount, List.foldl_nil]
    norm_num
  · intro h g hs
    have hth := (stableOfBuffer_inv h g hs).2.2
    have h6 : (0.6 : ℚ) = 3 / 5 := by norm_num
    rw [h6] at hth
    have hq : (6 * h.length : ℚ) ≤ 10 * countIn h g := by linarith
    exact_mod_cast hq

/-- Witness for C2: one concrete arrangement of each buffer. -/
theorem claim_c2_witness :
    stableOfBuffer [some "peace", some "peace", some "peace", some "peace",
      some "peace", some "peace", none, none, none, none] = some "peace" ∧
    stableOfBuffer [some "peace", some "peace", some "peace", some "peace",
      some "peace", none, none, none, none, none] = none := by
  constructor
  · exact claim_c2.1 _ (by decide) (by decide) (by decide)
  · exact claim_c2.2.1 _ (by decide) (by decide) (by decide)

/-- C9 counterexample: in `c9TieBuffer` the labels "peace" and "fist" are
genuinely tied for the highest count (the counts dict is exactly
[("peace", 3), ("fist", 3)]) and "peace" occurs first, yet the stabilizer
returns `None`, not "peace" as the claim asserts: 3 is below 60% of the
10-frame length, and a genuine top tie can never meet that threshold. -/
theorem claim_c9_counterexample :
    gestureCounts c9TieBuffer = [("peace", 3), ("fist", 3)] ∧
    firstIdx c9TieBuffer "peace" < firstIdx c9TieBuffer "fist" ∧
    c9TieBuffer.length = 10 ∧
    stableOfBuffer c9TieBuffer = none :=
  ⟨by decide, by decide, by decide, by with_unfolding_all rfl⟩

/-- C9 amended: the stabilizer is a pure function of the buffer and its
internal selection — `max(gesture_counts, key=gesture_counts.get)` — does
break ties by earliest first occurrence: whenever it picks a label, that
label carries its exact count, the count is maximal, and any label tied
with it first occurs no earlier. However, the stabilizer itself never
returns a tied label: when two distinct labels are tied for the highest
count, that count is below the 60% threshold and the stabilizer returns
`None`. -/
theorem claim_c9_amended :
    (∀ (h : List (Option String)) (g : String) (n : Nat),
      maxByCount (gestureCounts h) = some (g, n) →
      n = countIn h g ∧ 0 < countIn h g ∧
      (∀ g' : String, countIn h g' ≤ countIn h g) ∧
      (∀ g' : String, countIn h g' = countIn h g → 0 < countIn h g' →
        firstIdx h g ≤ firstIdx h g')) ∧
    (∀ (h : List (Option String)) (g g' : String), g ≠ g' →
      0 < countIn h g → countIn h g = countIn h g' →
      (∀ p ∈ gestureCounts h, p.2 ≤ countIn h g) →
      stableOfBuffer h = none) := by
  constructor
  · intro h g n hmax
    obtain ⟨hub, c₁, c₂, hsplit, hlt⟩ := maxByCount_spec _ _ hmax
    obtain ⟨hval, hmem, hpair⟩ := gestureCounts_spec h
    have hgmem : (g, n) ∈ gestureCounts h := by
      rw [hsplit]
      exact List.mem_append.mpr (Or.inr (List.mem_cons_self _ _))
    have hn : n = countIn h g := hval (g, n) hgmem
    subst hn
    have hgpos : 0 < countIn h g :=
      (hmem g).mp (List.mem_map.mpr ⟨(g, countIn h g), hgmem, rfl⟩)
    refine ⟨rfl, hgpos, ?_, ?_⟩
    · intro g'
      by_cases hpos : 0 < countIn h g'
      · obtain ⟨p, hp, hp1⟩ := List.mem_map.mp ((hmem g').mpr hpos)
        have hpv := hval p hp
        rw [hp1] at hpv
        have hple := hub p hp
        simp only at hple
        omega
      · omega
    · intro g' hEq hpos'
      by_cases hgg : g' = g
      · subst hgg
        exact le_refl _
      · obtain ⟨p, hp, hp1⟩ := List.mem_map.mp ((hmem g').mpr hpos')
        have hpv := hval p hp
        rw [hp1] at hpv
        have hpform : p = (g', countIn h g') := by
          obtain ⟨p1, p2⟩ := p
          simp only at hp1 hpv
          rw [hp1, hpv]
        rw [hsplit] at hp
        rcases List.mem_append.mp hp with hp' | hp'
        · have hplt := hlt p hp'
          rw [hpform] at hplt
          simp only at hplt
          omega
        · rcases List.mem_cons.mp hp' with hpeq | hp''
          · rw [hpform] at hpeq
            have : g' = g := congrArg Prod.fst hpeq
            exact absurd this hgg
          · have hkeys : (gestureCounts h).map Prod.fst =
                c₁.map Prod.fst ++ g :: c₂.map Prod.fst := by
              rw [hsplit]
              simp
            rw [hkeys] at hpair
            have hcons := (List.pairwise_append.mp hpair).2.1
            have hrel := (List.pairwise_cons.mp hcons).1
            have hg'mem : g' ∈ c₂.map Prod.fst := List.mem_map.mpr ⟨p, hp'', hp1⟩
            exact le_of_lt (hrel g' hg'mem)
  · intro h g g' hne hpos hEq hbound
    cases hsb : stableOfBuffer h with
    | none => rfl
    | some gw =>
      exfalso
      obtain ⟨h5, hmax, hth⟩ := stableOfBuffer_inv h gw hsb
      obtain ⟨hub, c₁, c₂, hsplit, hlt⟩ := maxByCount_spec _ _ hmax
      have hwmem : (gw, countIn h gw) ∈ gestureCounts h := by
        rw [hsplit]
        exact List.mem_append.mpr (Or.inr (List.mem_cons_self _ _))
      have hwpos : 0 < countIn h gw :=
        ((gestureCounts_spec h).2.1 gw).mp
          (List.mem_map.mpr ⟨(gw, countIn h gw), hwmem, rfl⟩)
      have hwle : countIn h gw ≤ countIn h g := hbound (gw, countIn h gw) hwmem
      have hsum : countIn h g + countIn h g' ≤ h.length := countIn_add_le h g g' hne
      have h6 : (0.6 : ℚ) = 3 / 5 := by norm_num
      rw [h6] at hth
      have hq : (6 * h.length : ℚ) ≤ 10 * countIn h gw := by linarith
      have hnat : 6 * h.length ≤ 10 * countIn h gw := by exact_mod_cast hq
      omega

/-- Witness for C9 (amended): on the genuinely tied buffer `c9TieBuffer` the
selection's winner "peace" first occurs no later than its tied rival "fist",
and the stabilizer returns `None`. -/
theorem claim_c9_amended_witness :
    firstIdx c9TieBuffer "peace" ≤ firstIdx c9TieBuffer "fist" ∧
    stableOfBuffer c9TieBuffer = none :=
  ⟨(claim_c9_amended.1 c9TieBuffer "peace" 3 (by decide)).2.2.2 "fist"
      (by decide) (by decide),
   claim_c9_amended.2 c9TieBuffer "peace" "fist" (by decide) (by decide)
      (by decide) (by decide)⟩

end GestureCtl
